import Mathlib

/-!
Shallow embedding of `packages/orbo/src/index.tsx` (the orbo global-state
library) and proofs about it.

Modelling conventions:
* Object identities (slice configurations used as map keys, listener
  callbacks, initial-values objects, provider instances) are represented by
  `Nat` identifiers; JS `Map`s keyed by object identity become association
  lists `List (Nat × _)` with JS `Map.get`/`Map.set`/`Map.delete` semantics.
* The value type of a slice is a type parameter `V`; the initial-values
  object type is a parameter `IV`.
* `typeof window !== "undefined"` is the boolean parameter `client`
  (`true` on the client, `false` during server-side rendering).
* A `config.onSubscribe` callback is modelled by the registry-visible
  effects it can have when invoked with `(updateState, initialValue)`:
  the list of synchronous `updateState` calls it makes (as a function of
  the initial value it receives) and whether it returns a cleanup
  function.  Calls it makes later (asynchronously) appear as ordinary
  `setState` operations in a trace.
* Invocations of user-supplied callbacks are recorded in an event list so
  that theorems can speak about which callbacks ran and with which
  arguments.
-/

namespace Orbo

/-- Argument of `updateState`: either a plain new state or a functional
update, mirroring `newState: T | ((prev: T) => T)` discriminated by
`typeof newState === "function"`. -/
inductive Upd (V : Type) where
  | const (w : V)
  | fn (f : V → V)

/-- Mirrors `newSubContext.value = typeof newState === "function" ? newState(value) : newState`. -/
def updateValue {V : Type} (v : V) (u : Upd V) : V :=
  match u with
  | .const w => w
  | .fn f => f v

/-- Registry-visible behaviour of a `config.onSubscribe` callback: the
synchronous `updateState` calls it performs (as a function of the
`initialState` argument passed to it) and whether it returns a cleanup
function. -/
structure OnSub (V : Type) where
  calls : V → List (Upd V)
  hasCleanup : Bool

/-- The `GlobalStateConfig<T>` interface from the source: `initialState`, the optional
`onSubscribe`, the (guarded) `onHydrate` callback — modelled by whether it
is present — and the optional `persistState` flag. -/
structure Config (IV V : Type) where
  initialState : IV → Bool → V
  onHydrate : Bool
  onSubscribe : Option (OnSub V)
  persistState : Option Bool

/-- The `SubContext<T>` interface from the source: current value, the `initialized`
helper flag, the listener set (listener callbacks as identifiers, in
insertion order), and whether a cleanup function is currently stored. -/
structure SubContext (V : Type) where
  value : V
  initialized : Bool
  listeners : List Nat
  cleanup : Bool
  deriving DecidableEq

/-- The `GlobalStateContextData` interface: the per-provider registry.  `subContexts`
maps slice-configuration identity to its `SubContext`. -/
structure ContextData (IV V : Type) where
  initialValues : IV
  subContexts : List (Nat × SubContext V)
  isHydrated : Bool
  deriving DecidableEq

/-- The registry a `GlobalStateProvider` starts with:
`{ initialValues, subContexts: new Map(), isHydrated: false }`. -/
def initialCtx {IV V : Type} (iv : IV) : ContextData IV V :=
  ⟨iv, [], false⟩

/-- Record of one invocation of a user-supplied function by the library. -/
inductive Event (IV V : Type) where
  | initialStateCalled (cfgId : Nat) (iv : IV) (isHydrated : Bool) (result : V)
  | onSubscribeCalled (cfgId : Nat) (initialArg : V)
  | cleanupCalled (cfgId : Nat)
  | onHydrateCalled (cfgId : Nat)
  | listenerNotified (cfgId : Nat) (listenerId : Nat) (value : V)
  deriving DecidableEq

/-- JS `Map.get` on an association list. -/
def mapGet {α : Type} (m : List (Nat × α)) (k : Nat) : Option α :=
  match m with
  | [] => none
  | (k', v) :: rest => if k' = k then some v else mapGet rest k

/-- JS `Map.set`: replace the entry for `k` in place, or append. -/
def mapSet {α : Type} (m : List (Nat × α)) (k : Nat) (v : α) : List (Nat × α) :=
  match m with
  | [] => [(k, v)]
  | (k', v') :: rest => if k' = k then (k, v) :: rest else (k', v') :: mapSet rest k v

/-- JS `Map.delete`.  A JS `Map` holds at most one entry per key, so
removing every entry with key `k` coincides with removing the entry. -/
def mapDel {α : Type} (m : List (Nat × α)) (k : Nat) : List (Nat × α) :=
  match m with
  | [] => []
  | (k', v') :: rest => if k' = k then mapDel rest k else (k', v') :: mapDel rest k

theorem mapGet_mapSet_self {α : Type} (m : List (Nat × α)) (k : Nat) (v : α) :
    mapGet (mapSet m k v) k = some v := by
  induction m with
  | nil => simp [mapGet, mapSet]
  | cons hd tl ih =>
    obtain ⟨k', v'⟩ := hd
    by_cases h : k' = k <;> simp [mapGet, mapSet, h, ih]

theorem mapGet_mapSet_ne {α : Type} (m : List (Nat × α)) (k k' : Nat) (v : α)
    (h : k' ≠ k) : mapGet (mapSet m k v) k' = mapGet m k' := by
  induction m with
  | nil => simp [mapGet, mapSet, Ne.symm h]
  | cons hd tl ih =>
    obtain ⟨a, b⟩ := hd
    by_cases ha : a = k
    · subst ha
      simp [mapGet, mapSet, Ne.symm h]
    · by_cases hb : a = k' <;> simp [mapGet, mapSet, ha, hb, ih, h]

theorem mapGet_mapDel_self {α : Type} (m : List (Nat × α)) (k : Nat) :
    mapGet (mapDel m k) k = none := by
  induction m with
  | nil => simp [mapGet, mapDel]
  | cons hd tl ih =>
    obtain ⟨a, b⟩ := hd
    by_cases ha : a = k <;> simp [mapGet, mapDel, ha, ih]

theorem mapGet_mapDel_ne {α : Type} (m : List (Nat × α)) (k k' : Nat)
    (h : k' ≠ k) : mapGet (mapDel m k) k' = mapGet m k' := by
  induction m with
  | nil => simp [mapDel]
  | cons hd tl ih =>
    obtain ⟨a, b⟩ := hd
    by_cases ha : a = k
    · subst ha
      simp [mapGet, mapDel, Ne.symm h, ih]
    · by_cases hb : a = k' <;> simp [mapGet, mapDel, ha, hb, ih, h]

/-- One call of `updateState` on a subcontext (`index.tsx` lines 185‑191):
store the new value, then notify every listener with the new value. -/
def updateStateCore {IV V : Type} (cfgId : Nat) (sc : SubContext V) (u : Upd V) :
    SubContext V × List (Event IV V) :=
  let v := updateValue sc.value u
  ({ sc with value := v }, sc.listeners.map (fun l => Event.listenerNotified cfgId l v))

/-- The synchronous `updateState` calls a running `onSubscribe` callback
performs, in order. -/
def applyCalls {IV V : Type} (cfgId : Nat) (sc : SubContext V) :
    List (Upd V) → SubContext V × List (Event IV V)
  | [] => (sc, [])
  | u :: rest =>
    let r1 : SubContext V × List (Event IV V) := updateStateCore cfgId sc u
    let r2 := applyCalls cfgId r1.1 rest
    (r2.1, r1.2 ++ r2.2)

/-- Mirrors `subContext.cleanup = onSubscribe(subContext.updateState, subContext.value)`
where `onSubscribe` is the guarded
`(typeof window !== "undefined" && config.onSubscribe) || (() => {})`:
during server rendering, or when the config has no `onSubscribe`, the no-op
runs (and stores `undefined` as cleanup); otherwise the user callback runs
with the current value, performs its synchronous `updateState` calls, and
its return value is stored as the cleanup. -/
def runOnSubscribe {IV V : Type} (client : Bool) (cfg : Config IV V) (cfgId : Nat)
    (sc : SubContext V) : SubContext V × List (Event IV V) :=
  match (if client then cfg.onSubscribe else none) with
  | none => ({ sc with cleanup := false }, [])
  | some os =>
    let r : SubContext V × List (Event IV V) := applyCalls cfgId sc (os.calls sc.value)
    ({ r.1 with cleanup := os.hasCleanup },
      Event.onSubscribeCalled cfgId sc.value :: r.2)

/-- The `initializeSubContext` closure (`index.tsx` lines 168‑238).  Returns the updated
registry, the subcontext handed back to the caller, and the events.

* Entry missing: compute
  `config.initialState(globalStateContext.initialValues, globalStateContext.isHydrated)`,
  build the subcontext with `initialized: true` and empty listeners, run the
  (guarded) `onSubscribe`, then `subContexts.set(stateKey, newSubContext)`.
* Entry present but `!initialized`: run the guarded `onSubscribe` again and
  set `initialized = true`.
* Entry present and initialized: return it unchanged. -/
def initializeSubContext {IV V : Type} (client : Bool) (cfg : Config IV V)
    (cfgId : Nat) (ctx : ContextData IV V) :
    ContextData IV V × SubContext V × List (Event IV V) :=
  match mapGet ctx.subContexts cfgId with
  | none =>
    let v0 := cfg.initialState ctx.initialValues ctx.isHydrated
    let sc0 : SubContext V :=
      { value := v0, initialized := true, listeners := [], cleanup := false }
    let r := runOnSubscribe client cfg cfgId sc0
    ({ ctx with subContexts := mapSet ctx.subContexts cfgId r.1 }, r.1,
      Event.initialStateCalled cfgId ctx.initialValues ctx.isHydrated v0 :: r.2)
  | some sc =>
    if sc.initialized then (ctx, sc, [])
    else
      let r := runOnSubscribe client cfg cfgId sc
      let sc2 := { r.1 with initialized := true }
      ({ ctx with subContexts := mapSet ctx.subContexts cfgId sc2 }, sc2, r.2)

/-- What `useGlobalState`'s `useState` initializer computes:
`initializeSubContext(globalStateContext).value`, together with the
registry it leaves behind. -/
def readValue {IV V : Type} (client : Bool) (cfg : Config IV V) (cfgId : Nat)
    (ctx : ContextData IV V) : ContextData IV V × V :=
  let r := initializeSubContext client cfg cfgId ctx
  (r.1, r.2.1.value)

/-- JS `Set.add`: inserts at the end unless already present. -/
def addListener (ls : List Nat) (l : Nat) : List Nat :=
  if l ∈ ls then ls else ls ++ [l]

/-- The unsubscribe closure returned by `subscribe` (`index.tsx` lines
200‑208), applied to the registry entry for `cfgId`: `listeners.delete(setter)`;
if the set became empty, clear `initialized`, evict the entry when
`persistState === false`, and call the stored cleanup (if any).  When the
entry is no longer in the registry the closure only touches an orphaned
object, so the registry is unchanged. -/
def unsubscribeOp {IV V : Type} (cfg : Config IV V) (cfgId listenerId : Nat)
    (ctx : ContextData IV V) : ContextData IV V × List (Event IV V) :=
  match mapGet ctx.subContexts cfgId with
  | none => (ctx, [])
  | some sc =>
    let ls := sc.listeners.erase listenerId
    if ls.isEmpty then
      let evs := if sc.cleanup then [Event.cleanupCalled cfgId] else []
      if cfg.persistState = some false then
        ({ ctx with subContexts := mapDel ctx.subContexts cfgId }, evs)
      else
        ({ ctx with
            subContexts :=
              mapSet ctx.subContexts cfgId
                { sc with listeners := ls, initialized := false } }, evs)
    else
      ({ ctx with
          subContexts := mapSet ctx.subContexts cfgId { sc with listeners := ls } },
        [])

/-- The operations the hooks and the provider perform against one registry.

* `read cfgId` — a component renders `useGlobalState`
  (`initializeSubContext(ctx)` in the `useState` initializer);
* `subscribe cfgId l` — the mount effect
  `initializeSubContext(ctx).subscribe(setter)` with listener identity `l`
  (used by both `useGlobalState` and `useSetGlobalState`);
* `unsubscribe cfgId l` — the effect cleanup calls the closure returned by
  `subscribe`;
* `setState cfgId u` — the setter returned by `useSetGlobalState`:
  `initializeSubContext(ctx).updateState(newState)`;
* `hydrate` — the provider's mount effect: `isHydrated = true`, then
  `subContexts.forEach(sc => sc.onHydrate())` (each `onHydrate` being the
  client-guarded wrapper). -/
inductive Op (V : Type) where
  | read (cfgId : Nat)
  | subscribe (cfgId listenerId : Nat)
  | unsubscribe (cfgId listenerId : Nat)
  | setState (cfgId : Nat) (u : Upd V)
  | hydrate

/-- The slice configuration an operation addresses, if any. -/
def Op.targets {V : Type} : Op V → Option Nat
  | .read cfgId => some cfgId
  | .subscribe cfgId _ => some cfgId
  | .unsubscribe cfgId _ => some cfgId
  | .setState cfgId _ => some cfgId
  | .hydrate => none

/-- One step of the registry: `cfgs` assigns to every configuration
identity the configuration object created by `createGlobalState`. -/
def step {IV V : Type} (client : Bool) (cfgs : Nat → Config IV V)
    (ctx : ContextData IV V) : Op V → ContextData IV V × List (Event IV V)
  | .read cfgId =>
    let r := initializeSubContext client (cfgs cfgId) cfgId ctx
    (r.1, r.2.2)
  | .subscribe cfgId l =>
    let r := initializeSubContext client (cfgs cfgId) cfgId ctx
    let sc := r.2.1
    ({ r.1 with
        subContexts :=
          mapSet r.1.subContexts cfgId
            { sc with listeners := addListener sc.listeners l } }, r.2.2)
  | .unsubscribe cfgId l => unsubscribeOp (cfgs cfgId) cfgId l ctx
  | .setState cfgId u =>
    let r := initializeSubContext client (cfgs cfgId) cfgId ctx
    let r2 : SubContext V × List (Event IV V) := updateStateCore cfgId r.2.1 u
    ({ r.1 with subContexts := mapSet r.1.subContexts cfgId r2.1 }, r.2.2 ++ r2.2)
  | .hydrate =>
    ({ ctx with isHydrated := true },
      ctx.subContexts.filterMap fun kv =>
        if client && (cfgs kv.1).onHydrate then some (Event.onHydrateCalled kv.1)
        else none)

/-- Run a list of operations, collecting the final registry and all events. -/
def runTrace {IV V : Type} (client : Bool) (cfgs : Nat → Config IV V) :
    ContextData IV V → List (Op V) → ContextData IV V × List (Event IV V)
  | ctx, [] => (ctx, [])
  | ctx, op :: ops =>
    let r := step client cfgs ctx op
    let r2 := runTrace client cfgs r.1 ops
    (r2.1, r.2 ++ r2.2)

theorem applyCalls_initialized {IV V : Type} (cfgId : Nat) (sc : SubContext V)
    (us : List (Upd V)) :
    ((applyCalls cfgId sc us : SubContext V × List (Event IV V))).1.initialized = sc.initialized := by
  induction us generalizing sc with
  | nil => rfl
  | cons u rest ih => simp [applyCalls, updateStateCore, ih]

theorem applyCalls_listeners {IV V : Type} (cfgId : Nat) (sc : SubContext V)
    (us : List (Upd V)) :
    ((applyCalls cfgId sc us : SubContext V × List (Event IV V))).1.listeners = sc.listeners := by
  induction us generalizing sc with
  | nil => rfl
  | cons u rest ih => simp [applyCalls, updateStateCore, ih]

theorem applyCalls_cleanup {IV V : Type} (cfgId : Nat) (sc : SubContext V)
    (us : List (Upd V)) :
    ((applyCalls cfgId sc us : SubContext V × List (Event IV V))).1.cleanup = sc.cleanup := by
  induction us generalizing sc with
  | nil => rfl
  | cons u rest ih => simp [applyCalls, updateStateCore, ih]

theorem applyCalls_events {IV V : Type} (cfgId : Nat) (sc : SubContext V)
    (us : List (Upd V)) (e : Event IV V) (he : e ∈ (applyCalls cfgId sc us).2) :
    ∃ l v, e = Event.listenerNotified cfgId l v := by
  induction us generalizing sc with
  | nil => simp [applyCalls] at he
  | cons u rest ih =>
    simp only [applyCalls, List.mem_append] at he
    rcases he with he | he
    · simp only [updateStateCore, List.mem_map] at he
      obtain ⟨l, _, rfl⟩ := he
      exact ⟨l, _, rfl⟩
    · exact ih _ he

theorem runOnSubscribe_initialized {IV V : Type} (client : Bool)
    (cfg : Config IV V) (cfgId : Nat) (sc : SubContext V) :
    (runOnSubscribe client cfg cfgId sc).1.initialized = sc.initialized := by
  unfold runOnSubscribe
  cases h : (if client then cfg.onSubscribe else none) with
  | none => simp
  | some os => simp [applyCalls_initialized]

theorem runOnSubscribe_listeners {IV V : Type} (client : Bool)
    (cfg : Config IV V) (cfgId : Nat) (sc : SubContext V) :
    (runOnSubscribe client cfg cfgId sc).1.listeners = sc.listeners := by
  unfold runOnSubscribe
  cases h : (if client then cfg.onSubscribe else none) with
  | none => simp
  | some os => simp [applyCalls_listeners]

theorem runOnSubscribe_events {IV V : Type} (client : Bool) (cfg : Config IV V)
    (cfgId : Nat) (sc : SubContext V) (e : Event IV V)
    (he : e ∈ (runOnSubscribe client cfg cfgId sc).2) :
    e = Event.onSubscribeCalled cfgId sc.value ∨
      ∃ l v, e = Event.listenerNotified cfgId l v := by
  unfold runOnSubscribe at he
  cases h : (if client then cfg.onSubscribe else none) with
  | none => simp [h] at he
  | some os =>
    simp only [h, List.mem_cons] at he
    rcases he with rfl | he
    · exact Or.inl rfl
    · exact Or.inr (applyCalls_events _ _ _ _ he)

theorem runOnSubscribe_server {IV V : Type} (cfg : Config IV V) (cfgId : Nat)
    (sc : SubContext V) :
    runOnSubscribe false cfg cfgId sc = ({ sc with cleanup := false }, []) := by
  simp [runOnSubscribe]

/-- The subcontext handed back by `initializeSubContext` is exactly the one
stored in the registry it returns. -/
theorem initializeSubContext_mapGet {IV V : Type} (client : Bool)
    (cfg : Config IV V) (cfgId : Nat) (ctx : ContextData IV V) :
    mapGet (initializeSubContext client cfg cfgId ctx).1.subContexts cfgId =
      some (initializeSubContext client cfg cfgId ctx).2.1 := by
  unfold initializeSubContext
  cases h : mapGet ctx.subContexts cfgId with
  | none => simp [mapGet_mapSet_self]
  | some sc =>
    by_cases hi : sc.initialized <;> simp [hi, h, mapGet_mapSet_self]

/-- A call of `initializeSubContext` touches no other key of the registry. -/
theorem initializeSubContext_frame {IV V : Type} (client : Bool)
    (cfg : Config IV V) (cfgId : Nat) (ctx : ContextData IV V) (k : Nat)
    (hk : k ≠ cfgId) :
    mapGet (initializeSubContext client cfg cfgId ctx).1.subContexts k =
      mapGet ctx.subContexts k := by
  unfold initializeSubContext
  cases h : mapGet ctx.subContexts cfgId with
  | none => simp [mapGet_mapSet_ne _ _ _ _ hk]
  | some sc =>
    by_cases hi : sc.initialized <;> simp [hi, mapGet_mapSet_ne _ _ _ _ hk]

theorem initializeSubContext_initialized {IV V : Type} (client : Bool)
    (cfg : Config IV V) (cfgId : Nat) (ctx : ContextData IV V) :
    (initializeSubContext client cfg cfgId ctx).2.1.initialized = true := by
  unfold initializeSubContext
  cases h : mapGet ctx.subContexts cfgId with
  | none => simpa using runOnSubscribe_initialized client cfg cfgId _
  | some sc => by_cases hi : sc.initialized <;> simp [hi]

theorem initializeSubContext_initialValues {IV V : Type} (client : Bool)
    (cfg : Config IV V) (cfgId : Nat) (ctx : ContextData IV V) :
    (initializeSubContext client cfg cfgId ctx).1.initialValues =
      ctx.initialValues := by
  unfold initializeSubContext
  cases h : mapGet ctx.subContexts cfgId with
  | none => simp
  | some sc => by_cases hi : sc.initialized <;> simp [hi]

theorem initializeSubContext_isHydrated {IV V : Type} (client : Bool)
    (cfg : Config IV V) (cfgId : Nat) (ctx : ContextData IV V) :
    (initializeSubContext client cfg cfgId ctx).1.isHydrated =
      ctx.isHydrated := by
  unfold initializeSubContext
  cases h : mapGet ctx.subContexts cfgId with
  | none => simp
  | some sc => by_cases hi : sc.initialized <;> simp [hi]

/-- Any `initialStateCalled` event an `initializeSubContext` call emits is
for this configuration, carries exactly the registry's initial-values
object and current hydration flag, and records the result of
`config.initialState` on them; moreover it only happens on entry creation. -/
theorem initializeSubContext_initialState_events {IV V : Type} (client : Bool)
    (cfg : Config IV V) (cfgId : Nat) (ctx : ContextData IV V)
    (k : Nat) (ivx : IV) (hx : Bool) (r : V)
    (he : Event.initialStateCalled k ivx hx r ∈
      (initializeSubContext client cfg cfgId ctx).2.2) :
    k = cfgId ∧ ivx = ctx.initialValues ∧ hx = ctx.isHydrated ∧
      r = cfg.initialState ctx.initialValues ctx.isHydrated ∧
      mapGet ctx.subContexts cfgId = none := by
  unfold initializeSubContext at he
  cases h : mapGet ctx.subContexts cfgId with
  | none =>
    simp only [h, List.mem_cons] at he
    rcases he with he | he
    · obtain ⟨h1, h2, h3, h4⟩ := Event.initialStateCalled.inj he
      exact ⟨h1, h2, h3, h4, rfl⟩
    · rcases runOnSubscribe_events _ _ _ _ _ he with h' | ⟨l, v, h'⟩ <;> simp at h'
  | some sc =>
    by_cases hi : sc.initialized
    · simp [h, hi] at he
    · simp only [h, hi, Bool.false_eq_true, if_false] at he
      rcases runOnSubscribe_events _ _ _ _ _ he with h' | ⟨l, v, h'⟩ <;> simp at h'

/-- Any `onSubscribeCalled` event an `initializeSubContext` call emits is
for this configuration, requires the client (`window` present) and a
configured callback, and can only happen when the entry was absent or not
`initialized`. -/
theorem initializeSubContext_onSub_events {IV V : Type} (client : Bool)
    (cfg : Config IV V) (cfgId : Nat) (ctx : ContextData IV V)
    (k : Nat) (v : V)
    (he : Event.onSubscribeCalled k v ∈
      (initializeSubContext client cfg cfgId ctx).2.2) :
    k = cfgId ∧ client = true ∧
      (mapGet ctx.subContexts cfgId = none ∨
        ∃ sc, mapGet ctx.subContexts cfgId = some sc ∧ sc.initialized = false) := by
  have hclient : ∀ sc : SubContext V,
      Event.onSubscribeCalled k v ∈ (runOnSubscribe client cfg cfgId sc).2 →
      k = cfgId ∧ client = true := by
    intro sc hsc
    unfold runOnSubscribe at hsc
    cases hcl : client with
    | false => simp [hcl] at hsc
    | true =>
      refine ⟨?_, rfl⟩
      cases hos : cfg.onSubscribe with
      | none => simp [hcl, hos] at hsc
      | some os =>
        simp only [hcl, hos, if_true, List.mem_cons] at hsc
        rcases hsc with hsc | hsc
        · exact (Event.onSubscribeCalled.inj hsc).1
        · obtain ⟨l, w, hlw⟩ := applyCalls_events _ _ _ _ hsc
          simp at hlw
  unfold initializeSubContext at he
  cases h : mapGet ctx.subContexts cfgId with
  | none =>
    simp only [h, List.mem_cons] at he
    rcases he with he | he
    · simp at he
    · obtain ⟨h1, h2⟩ := hclient _ he
      exact ⟨h1, h2, Or.inl rfl⟩
  | some sc =>
    by_cases hi : sc.initialized
    · simp [h, hi] at he
    · simp only [h, hi, Bool.false_eq_true, if_false] at he
      obtain ⟨h1, h2⟩ := hclient _ he
      exact ⟨h1, h2, Or.inr ⟨sc, rfl, by simpa using hi⟩⟩

/-- The configured `onSubscribe` callback (if any) performs no synchronous
`updateState` call while it runs. -/
def syncCallFree {IV V : Type} (cfg : Config IV V) : Prop :=
  ∀ os, cfg.onSubscribe = some os → ∀ v, os.calls v = []

/-- C1: For every slice configuration and every initial-values object, the
value computed for the slice during server rendering equals the value
computed during the first client render: in both runs (a fresh provider
registry, before the provider's hydration effect) every `initialState`
call receives the same initial-values object and the hydration flag
`false`, and both runs compute the same result
`cfg.initialState iv false`; consequently — as long as `onSubscribe` does
not synchronously overwrite the value — the slice value stored on the
server equals the one stored on the first client render. -/
theorem ssr_and_first_client_render_agree {IV V : Type} (cfg : Config IV V)
    (cfgId : Nat) (iv : IV) :
    (∀ k ivx hx r, Event.initialStateCalled k ivx hx r ∈
        (initializeSubContext false cfg cfgId (initialCtx iv)).2.2 →
        ivx = iv ∧ hx = false ∧ r = cfg.initialState iv false) ∧
    (∀ k ivx hx r, Event.initialStateCalled k ivx hx r ∈
        (initializeSubContext true cfg cfgId (initialCtx iv)).2.2 →
        ivx = iv ∧ hx = false ∧ r = cfg.initialState iv false) ∧
    Event.initialStateCalled cfgId iv false (cfg.initialState iv false) ∈
      (initializeSubContext false cfg cfgId (initialCtx iv)).2.2 ∧
    Event.initialStateCalled cfgId iv false (cfg.initialState iv false) ∈
      (initializeSubContext true cfg cfgId (initialCtx iv)).2.2 ∧
    (syncCallFree cfg →
      (initializeSubContext false cfg cfgId (initialCtx iv)).2.1.value =
        (initializeSubContext true cfg cfgId (initialCtx iv)).2.1.value) := by
  have hmem : ∀ client : Bool,
      Event.initialStateCalled cfgId iv false (cfg.initialState iv false) ∈
        (initializeSubContext client cfg cfgId (initialCtx iv)).2.2 := by
    intro client
    unfold initializeSubContext
    simp [initialCtx, mapGet]
  refine ⟨?_, ?_, hmem false, hmem true, ?_⟩
  · intro k ivx hx r he
    obtain ⟨_, h2, h3, h4, _⟩ :=
      initializeSubContext_initialState_events false cfg cfgId (initialCtx iv)
        k ivx hx r he
    exact ⟨h2, h3, by simpa [initialCtx] using h4⟩
  · intro k ivx hx r he
    obtain ⟨_, h2, h3, h4, _⟩ :=
      initializeSubContext_initialState_events true cfg cfgId (initialCtx iv)
        k ivx hx r he
    exact ⟨h2, h3, by simpa [initialCtx] using h4⟩
  · intro hfree
    unfold initializeSubContext
    simp only [initialCtx, mapGet]
    cases hos : cfg.onSubscribe with
    | none => simp [runOnSubscribe, hos]
    | some os => simp [runOnSubscribe, hos, hfree os hos, applyCalls]

/-- A concrete slice configuration used by witness statements:
`initialState(iv, hyd) = iv + 2` with an `onSubscribe` that performs no
synchronous update and returns a cleanup. -/
def sampleCfg : Config Nat Nat :=
  { initialState := fun iv _ => iv + 2
    onHydrate := false
    onSubscribe := some { calls := fun _ => [], hasCleanup := true }
    persistState := none }

theorem ssr_and_first_client_render_agree_witness :
    (initializeSubContext false sampleCfg 0 (initialCtx 5)).2.1.value =
      (initializeSubContext true sampleCfg 0 (initialCtx 5)).2.1.value ∧
    Event.initialStateCalled 0 5 false (sampleCfg.initialState 5 false) ∈
      (initializeSubContext false sampleCfg 0 (initialCtx 5)).2.2 :=
  ⟨(ssr_and_first_client_render_agree sampleCfg 0 5).2.2.2.2
      (fun os hos _ => by cases hos; rfl),
    (ssr_and_first_client_render_agree sampleCfg 0 5).2.2.1⟩

/-- On an initialized entry, `initializeSubContext` is the identity. -/
theorem initializeSubContext_of_initialized {IV V : Type} (client : Bool)
    (cfg : Config IV V) (cfgId : Nat) (ctx : ContextData IV V)
    (sc : SubContext V) (h : mapGet ctx.subContexts cfgId = some sc)
    (hi : sc.initialized = true) :
    initializeSubContext client cfg cfgId ctx = (ctx, sc, []) := by
  unfold initializeSubContext
  simp [h, hi]

/-- C2: within one registry every read of a slice returns the single value
stored in the registry's entry for that configuration, and every listener
notification emitted by an update passes exactly that stored value: no two
readers can observe divergent copies. -/
theorem slice_readers_observe_single_value {IV V : Type} (client : Bool)
    (cfg : Config IV V) (cfgs : Nat → Config IV V) (cfgId : Nat)
    (ctx1 ctx2 : ContextData IV V) (sc : SubContext V) (u : Upd V) :
    (∃ sc0, mapGet (readValue client cfg cfgId ctx1).1.subContexts cfgId =
        some sc0 ∧ (readValue client cfg cfgId ctx1).2 = sc0.value) ∧
    (mapGet ctx2.subContexts cfgId = some sc → sc.initialized = true →
      ∃ sc', mapGet (step client cfgs ctx2 (Op.setState cfgId u)).1.subContexts
          cfgId = some sc' ∧
        ∀ e ∈ (step client cfgs ctx2 (Op.setState cfgId u)).2,
          ∃ l, e = Event.listenerNotified cfgId l sc'.value) := by
  constructor
  · exact ⟨(initializeSubContext client cfg cfgId ctx1).2.1,
      initializeSubContext_mapGet client cfg cfgId ctx1, rfl⟩
  · intro h hi
    refine ⟨{ sc with value := updateValue sc.value u }, ?_, ?_⟩
    · simp [step, initializeSubContext_of_initialized client (cfgs cfgId) cfgId
        ctx2 sc h hi, updateStateCore, mapGet_mapSet_self]
    · intro e he
      simp only [step, initializeSubContext_of_initialized client (cfgs cfgId)
        cfgId ctx2 sc h hi, updateStateCore, List.nil_append, List.mem_map] at he
      obtain ⟨l, _, rfl⟩ := he
      exact ⟨l, rfl⟩

theorem slice_readers_observe_single_value_witness :
    (∃ sc0, mapGet (readValue true sampleCfg 0 (initialCtx 5)).1.subContexts 0 =
        some sc0 ∧ (readValue true sampleCfg 0 (initialCtx 5)).2 = sc0.value) ∧
    (∃ sc', mapGet (step true (fun _ => sampleCfg)
        ⟨5, [(0, ⟨7, true, [3, 4], false⟩)], true⟩
        (Op.setState 0 (Upd.const 9))).1.subContexts 0 = some sc' ∧
      ∀ e ∈ (step true (fun _ => sampleCfg)
          ⟨5, [(0, ⟨7, true, [3, 4], false⟩)], true⟩
          (Op.setState 0 (Upd.const 9))).2,
        ∃ l, e = Event.listenerNotified 0 l sc'.value) :=
  ⟨(slice_readers_observe_single_value true sampleCfg (fun _ => sampleCfg) 0
      (initialCtx 5) ⟨5, [(0, ⟨7, true, [3, 4], false⟩)], true⟩
      ⟨7, true, [3, 4], false⟩ (Upd.const 9)).1,
    (slice_readers_observe_single_value true sampleCfg (fun _ => sampleCfg) 0
      (initialCtx 5) ⟨5, [(0, ⟨7, true, [3, 4], false⟩)], true⟩
      ⟨7, true, [3, 4], false⟩ (Upd.const 9)).2 rfl rfl⟩

/-- C9: `updateState` has functional-update semantics.  On an entry with
current value `v`, a functional argument `f` stores `f v`, a plain value
`w` stores `w`; in both cases the emitted notifications are exactly one
per currently registered listener, each carrying the new stored value. -/
theorem updateState_functional_semantics {IV V : Type} [DecidableEq IV]
    [DecidableEq V] (client : Bool) (cfgs : Nat → Config IV V) (cfgId : Nat)
    (ctx : ContextData IV V) (sc : SubContext V) (u : Upd V)
    (h : mapGet ctx.subContexts cfgId = some sc) (hi : sc.initialized = true) :
    ∃ sc', mapGet (step client cfgs ctx (Op.setState cfgId u)).1.subContexts
        cfgId = some sc' ∧
      (∀ f, u = Upd.fn f → sc'.value = f sc.value) ∧
      (∀ w, u = Upd.const w → sc'.value = w) ∧
      sc'.listeners = sc.listeners ∧
      (step client cfgs ctx (Op.setState cfgId u)).2 =
        sc.listeners.map (fun l => Event.listenerNotified cfgId l sc'.value) ∧
      (sc.listeners.Nodup → ∀ l ∈ sc.listeners,
        ((step client cfgs ctx (Op.setState cfgId u)).2.count
          (Event.listenerNotified cfgId l sc'.value)) = 1) := by
  have hstep : step client cfgs ctx (Op.setState cfgId u) =
      ({ ctx with
          subContexts :=
            mapSet ctx.subContexts cfgId { sc with value := updateValue sc.value u } },
        sc.listeners.map
          (fun l => Event.listenerNotified cfgId l (updateValue sc.value u))) := by
    simp [step, initializeSubContext_of_initialized client (cfgs cfgId) cfgId
      ctx sc h hi, updateStateCore]
  refine ⟨{ sc with value := updateValue sc.value u }, ?_, ?_, ?_, rfl, ?_, ?_⟩
  · rw [hstep]
    exact mapGet_mapSet_self _ _ _
  · intro f hf
    simp [hf, updateValue]
  · intro w hw
    simp [hw, updateValue]
  · rw [hstep]
  · intro hnd l hl
    rw [hstep]
    have hinj : Function.Injective
        (fun l => (Event.listenerNotified cfgId l
          (updateValue sc.value u) : Event IV V)) := by
      intro a b hab
      simpa using hab
    rw [List.count_map_of_injective _ _ hinj]
    exact List.count_eq_one_of_mem hnd hl

theorem updateState_functional_semantics_witness :
    ∃ sc', mapGet (step true (fun _ => sampleCfg)
        ⟨5, [(0, ⟨7, true, [3, 4], false⟩)], true⟩
        (Op.setState 0 (Upd.fn (fun v => v + 10)))).1.subContexts 0 =
        some sc' ∧
      (∀ f, Upd.fn (fun v => v + 10) = Upd.fn f → sc'.value = f 7) ∧
      (∀ w, Upd.fn (fun v => v + 10) = Upd.const w → sc'.value = w) ∧
      sc'.listeners = [3, 4] ∧
      (step true (fun _ => sampleCfg)
          ⟨5, [(0, ⟨7, true, [3, 4], false⟩)], true⟩
          (Op.setState 0 (Upd.fn (fun v => v + 10)))).2 =
        [3, 4].map (fun l => Event.listenerNotified 0 l sc'.value) ∧
      (([3, 4] : List Nat).Nodup → ∀ l ∈ ([3, 4] : List Nat),
        ((step true (fun _ => sampleCfg)
            ⟨5, [(0, ⟨7, true, [3, 4], false⟩)], true⟩
            (Op.setState 0 (Upd.fn (fun v => v + 10)))).2.count
          (Event.listenerNotified 0 l sc'.value)) = 1) :=
  updateState_functional_semantics true (fun _ => sampleCfg) 0
    ⟨5, [(0, ⟨7, true, [3, 4], false⟩)], true⟩ ⟨7, true, [3, 4], false⟩
    (Upd.fn (fun v => v + 10)) rfl rfl

/-- C8: state slices are independent.  An update addressed to one slice
configuration leaves the registry entry of every other configuration —
value, listeners, `initialized` flag and cleanup — exactly as before. -/
theorem setState_frames_other_slices {IV V : Type} (client : Bool)
    (cfgs : Nat → Config IV V) (cfgId : Nat) (u : Upd V)
    (ctx : ContextData IV V) (k : Nat) (hk : k ≠ cfgId) :
    mapGet (step client cfgs ctx (Op.setState cfgId u)).1.subContexts k =
      mapGet ctx.subContexts k := by
  show mapGet (mapSet _ cfgId _) k = _
  rw [mapGet_mapSet_ne _ _ _ _ hk]
  exact initializeSubContext_frame client (cfgs cfgId) cfgId ctx k hk

theorem setState_frames_other_slices_witness :
    mapGet (step true (fun _ => sampleCfg)
        ⟨5, [(0, ⟨7, true, [3], false⟩), (1, ⟨8, true, [4], true⟩)], true⟩
        (Op.setState 0 (Upd.const 9))).1.subContexts 1 =
      mapGet [(0, (⟨7, true, [3], false⟩ : SubContext Nat)),
        (1, ⟨8, true, [4], true⟩)] 1 :=
  setState_frames_other_slices true (fun _ => sampleCfg) 0 (Upd.const 9)
    ⟨5, [(0, ⟨7, true, [3], false⟩), (1, ⟨8, true, [4], true⟩)], true⟩ 1
    (by decide)

/-- The subscription epoch of a slice entry has ended: the entry is absent
from the registry (evicted) or its `initialized` flag was cleared because
its last subscriber left. -/
def epochEnded {IV V : Type} (ctx : ContextData IV V) (cfgId : Nat) : Prop :=
  mapGet ctx.subContexts cfgId = none ∨
    ∃ sc, mapGet ctx.subContexts cfgId = some sc ∧ sc.initialized = false

/-- Registry invariant: an entry whose `initialized` flag is cleared has no
listeners (the flag is only cleared when the listener set empties, and any
subscription re-initializes first). -/
def uninitEmpty {IV V : Type} (ctx : ContextData IV V) : Prop :=
  ∀ k sc, mapGet ctx.subContexts k = some sc → sc.initialized = false →
    sc.listeners = []

theorem uninitEmpty_initial {IV V : Type} (iv : IV) :
    uninitEmpty (initialCtx iv : ContextData IV V) := by
  intro k sc h
  simp [initialCtx, mapGet] at h

theorem uninitEmpty_step {IV V : Type} (client : Bool)
    (cfgs : Nat → Config IV V) (ctx : ContextData IV V) (op : Op V)
    (hinv : uninitEmpty ctx) : uninitEmpty (step client cfgs ctx op).1 := by
  cases op with
  | read cfgId =>
    intro k sc h hf
    by_cases hk : k = cfgId
    · subst hk
      rw [show (step client cfgs ctx (Op.read k)).1 =
          (initializeSubContext client (cfgs k) k ctx).1 from rfl,
        initializeSubContext_mapGet] at h
      obtain rfl := Option.some.inj h
      rw [initializeSubContext_initialized] at hf
      simp at hf
    · rw [show (step client cfgs ctx (Op.read cfgId)).1 =
          (initializeSubContext client (cfgs cfgId) cfgId ctx).1 from rfl,
        initializeSubContext_frame _ _ _ _ _ hk] at h
      exact hinv k sc h hf
  | subscribe cfgId l =>
    intro k sc h hf
    simp only [step] at h
    by_cases hk : k = cfgId
    · subst hk
      rw [mapGet_mapSet_self] at h
      obtain rfl := Option.some.inj h
      simp only at hf
      rw [initializeSubContext_initialized] at hf
      simp at hf
    · rw [mapGet_mapSet_ne _ _ _ _ hk,
        initializeSubContext_frame _ _ _ _ _ hk] at h
      exact hinv k sc h hf
  | unsubscribe cfgId l =>
    intro k sc h hf
    simp only [step, unsubscribeOp] at h
    cases hg : mapGet ctx.subContexts cfgId with
    | none =>
      rw [hg] at h
      exact hinv k sc h hf
    | some sc0 =>
      rw [hg] at h
      by_cases hemp : (sc0.listeners.erase l).isEmpty
      · simp only [hemp, if_true] at h
        by_cases hp : (cfgs cfgId).persistState = some false
        · rw [if_pos hp] at h
          by_cases hk : k = cfgId
          · subst hk
            rw [mapGet_mapDel_self] at h
            exact absurd h (by simp)
          · rw [mapGet_mapDel_ne _ _ _ hk] at h
            exact hinv k sc h hf
        · rw [if_neg hp] at h
          by_cases hk : k = cfgId
          · subst hk
            rw [mapGet_mapSet_self] at h
            obtain rfl := Option.some.inj h
            simpa using List.isEmpty_iff.mp hemp
          · rw [mapGet_mapSet_ne _ _ _ _ hk] at h
            exact hinv k sc h hf
      · simp only [hemp, Bool.false_eq_true, if_false] at h
        by_cases hk : k = cfgId
        · subst hk
          rw [mapGet_mapSet_self] at h
          obtain rfl := Option.some.inj h
          simp only at hf
          have := hinv k sc0 hg hf
          rw [this] at hemp
          simp [List.erase] at hemp
        · rw [mapGet_mapSet_ne _ _ _ _ hk] at h
          exact hinv k sc h hf
  | setState cfgId u =>
    intro k sc h hf
    simp only [step] at h
    by_cases hk : k = cfgId
    · subst hk
      rw [mapGet_mapSet_self] at h
      obtain rfl := Option.some.inj h
      simp only [updateStateCore] at hf
      rw [initializeSubContext_initialized] at hf
      simp at hf
    · rw [mapGet_mapSet_ne _ _ _ _ hk,
        initializeSubContext_frame _ _ _ _ _ hk] at h
      exact hinv k sc h hf
  | hydrate =>
    intro k sc h hf
    simp only [step] at h
    exact hinv k sc h hf

theorem uninitEmpty_runTrace {IV V : Type} (client : Bool)
    (cfgs : Nat → Config IV V) (ctx : ContextData IV V) (ops : List (Op V))
    (hinv : uninitEmpty ctx) :
    uninitEmpty (runTrace client cfgs ctx ops).1 := by
  induction ops generalizing ctx with
  | nil => exact hinv
  | cons op rest ih =>
    exact ih _ (uninitEmpty_step client cfgs ctx op hinv)

/-- A step can invoke an `onSubscribe` callback for `cfgId` only on the
client, and only from a state in which the entry's epoch had ended (entry
absent or `initialized` cleared). -/
theorem step_onSub_requires_epochEnded {IV V : Type} (client : Bool)
    (cfgs : Nat → Config IV V) (ctx : ContextData IV V) (op : Op V)
    (cfgId : Nat) (v : V)
    (he : Event.onSubscribeCalled cfgId v ∈ (step client cfgs ctx op).2) :
    client = true ∧ epochEnded ctx cfgId := by
  cases op with
  | read cfgId' =>
    obtain ⟨h1, h2, h3⟩ :=
      initializeSubContext_onSub_events client (cfgs cfgId') cfgId' ctx _ _ he
    subst h1
    exact ⟨h2, h3.imp id (fun ⟨sc, hs, hi⟩ => ⟨sc, hs, hi⟩)⟩
  | subscribe cfgId' l =>
    simp only [step] at he
    obtain ⟨h1, h2, h3⟩ :=
      initializeSubContext_onSub_events client (cfgs cfgId') cfgId' ctx _ _ he
    subst h1
    exact ⟨h2, h3.imp id (fun ⟨sc, hs, hi⟩ => ⟨sc, hs, hi⟩)⟩
  | setState cfgId' u =>
    simp only [step, List.mem_append] at he
    rcases he with he | he
    · obtain ⟨h1, h2, h3⟩ :=
        initializeSubContext_onSub_events client (cfgs cfgId') cfgId' ctx _ _ he
      subst h1
      exact ⟨h2, h3.imp id (fun ⟨sc, hs, hi⟩ => ⟨sc, hs, hi⟩)⟩
    · simp only [updateStateCore, List.mem_map] at he
      obtain ⟨l, _, hlv⟩ := he
      simp at hlv
  | unsubscribe cfgId' l =>
    simp only [step, unsubscribeOp] at he
    cases hg : mapGet ctx.subContexts cfgId' with
    | none => rw [hg] at he; simp at he
    | some sc0 =>
      rw [hg] at he
      by_cases hemp : (sc0.listeners.erase l).isEmpty <;>
        by_cases hp : (cfgs cfgId').persistState = some false <;>
          by_cases hc : sc0.cleanup <;>
            simp [hemp, hp, hc] at he
  | hydrate =>
    simp only [step, List.mem_filterMap] at he
    obtain ⟨kv, _, hkv⟩ := he
    by_cases hb : client && (cfgs kv.1).onHydrate <;> simp [hb] at hkv

/-- C3: the external-sync callback fires at most once per live epoch.  If,
after some operations, `onSubscribe` for a slice fires (`op1`), and after
further operations it fires a second time (`op2`), then in the registry
state just before the second invocation — a point lying between the two
invocations — the entry's epoch had ended: the entry was absent or its
`initialized` flag was cleared, and its subscriber count was zero.  Hence
no subscribe/unsubscribe sequence makes `onSubscribe` run twice without
the subscriber count dropping to zero in between. -/
theorem onSubscribe_at_most_once_per_epoch {IV V : Type} (client : Bool)
    (cfgs : Nat → Config IV V) (iv : IV) (cfgId : Nat)
    (ops1 : List (Op V)) (op1 : Op V) (ops2 : List (Op V)) (op2 : Op V)
    (v1 v2 : V)
    (_hfire1 : Event.onSubscribeCalled cfgId v1 ∈
      (step client cfgs (runTrace client cfgs (initialCtx iv) ops1).1 op1).2)
    (hfire2 : Event.onSubscribeCalled cfgId v2 ∈
      (step client cfgs
        (runTrace client cfgs (initialCtx iv) (ops1 ++ op1 :: ops2)).1 op2).2) :
    epochEnded (runTrace client cfgs (initialCtx iv) (ops1 ++ op1 :: ops2)).1
      cfgId ∧
    ∀ sc, mapGet (runTrace client cfgs (initialCtx iv)
        (ops1 ++ op1 :: ops2)).1.subContexts cfgId = some sc →
      sc.listeners = [] := by
  obtain ⟨-, hended⟩ := step_onSub_requires_epochEnded client cfgs _ op2 cfgId
    v2 hfire2
  refine ⟨hended, ?_⟩
  intro sc hsc
  have hinv := uninitEmpty_runTrace client cfgs (initialCtx iv)
    (ops1 ++ op1 :: ops2) (uninitEmpty_initial iv)
  rcases hended with hnone | ⟨sc', hsome, hini⟩
  · rw [hsc] at hnone
    cases hnone
  · rw [hsc] at hsome
    obtain rfl := Option.some.inj hsome
    exact hinv cfgId sc hsc hini

/-- A slice configuration with `persistState: true` and an `onSubscribe`
performing no synchronous update, used by witness statements. -/
def sampleCfgPersist : Config Nat Nat :=
  { initialState := fun iv _ => iv + 2
    onHydrate := false
    onSubscribe := some { calls := fun _ => [], hasCleanup := false }
    persistState := some true }

theorem onSubscribe_at_most_once_per_epoch_witness :
    epochEnded (runTrace true (fun _ => sampleCfgPersist) (initialCtx 5)
      ([] ++ Op.subscribe 0 1 :: [Op.unsubscribe 0 1])).1 0 ∧
    ∀ sc, mapGet (runTrace true (fun _ => sampleCfgPersist) (initialCtx 5)
        ([] ++ Op.subscribe 0 1 :: [Op.unsubscribe 0 1])).1.subContexts 0 =
        some sc →
      sc.listeners = [] :=
  onSubscribe_at_most_once_per_epoch true (fun _ => sampleCfgPersist) 5 0
    [] (Op.subscribe 0 1) [Op.unsubscribe 0 1] (Op.read 0) 7 7
    (by decide) (by decide)

/-- Registry invariant on the server: no entry ever stores a cleanup
function, because the `onSubscribe` wrapper is the no-op there. -/
def cleanupFree {IV V : Type} (ctx : ContextData IV V) : Prop :=
  ∀ k sc, mapGet ctx.subContexts k = some sc → sc.cleanup = false

theorem cleanupFree_initial {IV V : Type} (iv : IV) :
    cleanupFree (initialCtx iv : ContextData IV V) := by
  intro k sc h
  simp [initialCtx, mapGet] at h

/-- During server rendering every event `initializeSubContext` emits is the
single `initialState` computation of a newly created entry. -/
theorem initializeSubContext_server_events {IV V : Type} (cfg : Config IV V)
    (cfgId : Nat) (ctx : ContextData IV V) (e : Event IV V)
    (he : e ∈ (initializeSubContext false cfg cfgId ctx).2.2) :
    e = Event.initialStateCalled cfgId ctx.initialValues ctx.isHydrated
      (cfg.initialState ctx.initialValues ctx.isHydrated) := by
  unfold initializeSubContext at he
  cases h : mapGet ctx.subContexts cfgId with
  | none => simpa [h, runOnSubscribe] using he
  | some sc =>
    by_cases hi : sc.initialized <;> simp [h, hi, runOnSubscribe] at he

theorem initializeSubContext_server_cleanup {IV V : Type} (cfg : Config IV V)
    (cfgId : Nat) (ctx : ContextData IV V) (hcf : cleanupFree ctx) :
    (initializeSubContext false cfg cfgId ctx).2.1.cleanup = false := by
  unfold initializeSubContext
  cases h : mapGet ctx.subContexts cfgId with
  | none => simp [runOnSubscribe]
  | some sc =>
    by_cases hi : sc.initialized
    · simpa [h, hi] using hcf cfgId sc h
    · simp [h, hi, runOnSubscribe]

theorem cleanupFree_step_server {IV V : Type} (cfgs : Nat → Config IV V)
    (ctx : ContextData IV V) (op : Op V) (hcf : cleanupFree ctx) :
    cleanupFree (step false cfgs ctx op).1 := by
  cases op with
  | read cfgId =>
    intro k sc h
    by_cases hk : k = cfgId
    · subst hk
      rw [show (step false cfgs ctx (Op.read k)).1 =
          (initializeSubContext false (cfgs k) k ctx).1 from rfl,
        initializeSubContext_mapGet] at h
      obtain rfl := Option.some.inj h
      exact initializeSubContext_server_cleanup (cfgs k) k ctx hcf
    · rw [show (step false cfgs ctx (Op.read cfgId)).1 =
          (initializeSubContext false (cfgs cfgId) cfgId ctx).1 from rfl,
        initializeSubContext_frame _ _ _ _ _ hk] at h
      exact hcf k sc h
  | subscribe cfgId l =>
    intro k sc h
    simp only [step] at h
    by_cases hk : k = cfgId
    · subst hk
      rw [mapGet_mapSet_self] at h
      obtain rfl := Option.some.inj h
      exact initializeSubContext_server_cleanup (cfgs k) k ctx hcf
    · rw [mapGet_mapSet_ne _ _ _ _ hk,
        initializeSubContext_frame _ _ _ _ _ hk] at h
      exact hcf k sc h
  | setState cfgId u =>
    intro k sc h
    simp only [step] at h
    by_cases hk : k = cfgId
    · subst hk
      rw [mapGet_mapSet_self] at h
      obtain rfl := Option.some.inj h
      simpa [updateStateCore] using
        initializeSubContext_server_cleanup (cfgs k) k ctx hcf
    · rw [mapGet_mapSet_ne _ _ _ _ hk,
        initializeSubContext_frame _ _ _ _ _ hk] at h
      exact hcf k sc h
  | unsubscribe cfgId l =>
    intro k sc h
    simp only [step, unsubscribeOp] at h
    cases hg : mapGet ctx.subContexts cfgId with
    | none =>
      rw [hg] at h
      exact hcf k sc h
    | some sc0 =>
      rw [hg] at h
      simp only [] at h
      by_cases hemp : (sc0.listeners.erase l).isEmpty
      · rw [if_pos hemp] at h
        by_cases hp : (cfgs cfgId).persistState = some false
        · rw [if_pos hp] at h
          by_cases hk : k = cfgId
          · subst hk
            rw [mapGet_mapDel_self] at h
            cases h
          · rw [mapGet_mapDel_ne _ _ _ hk] at h
            exact hcf k sc h
        · rw [if_neg hp] at h
          by_cases hk : k = cfgId
          · subst hk
            rw [mapGet_mapSet_self] at h
            obtain rfl := Option.some.inj h
            exact hcf k sc0 hg
          · rw [mapGet_mapSet_ne _ _ _ _ hk] at h
            exact hcf k sc h
      · simp only [hemp, Bool.false_eq_true, if_false] at h
        by_cases hk : k = cfgId
        · subst hk
          rw [mapGet_mapSet_self] at h
          obtain rfl := Option.some.inj h
          exact hcf k sc0 hg
        · rw [mapGet_mapSet_ne _ _ _ _ hk] at h
          exact hcf k sc h
  | hydrate =>
    intro k sc h
    simp only [step] at h
    exact hcf k sc h

/-- On the server a step only ever runs `initialState` (on entry creation)
or notifies listeners; no configured callback is invoked. -/
theorem step_server_events {IV V : Type} (cfgs : Nat → Config IV V)
    (ctx : ContextData IV V) (op : Op V) (hcf : cleanupFree ctx)
    (e : Event IV V) (he : e ∈ (step false cfgs ctx op).2) :
    (∃ k ivx hx r, e = Event.initialStateCalled k ivx hx r) ∨
      ∃ k l v, e = Event.listenerNotified k l v := by
  cases op with
  | read cfgId =>
    exact Or.inl ⟨cfgId, _, _, _,
      initializeSubContext_server_events (cfgs cfgId) cfgId ctx e he⟩
  | subscribe cfgId l =>
    exact Or.inl ⟨cfgId, _, _, _,
      initializeSubContext_server_events (cfgs cfgId) cfgId ctx e he⟩
  | setState cfgId u =>
    simp only [step, List.mem_append] at he
    rcases he with he | he
    · exact Or.inl ⟨cfgId, _, _, _,
        initializeSubContext_server_events (cfgs cfgId) cfgId ctx e he⟩
    · simp only [updateStateCore, List.mem_map] at he
      obtain ⟨l, _, rfl⟩ := he
      exact Or.inr ⟨cfgId, l, _, rfl⟩
  | unsubscribe cfgId l =>
    simp only [step, unsubscribeOp] at he
    cases hg : mapGet ctx.subContexts cfgId with
    | none =>
      rw [hg] at he
      simp at he
    | some sc0 =>
      rw [hg] at he
      have hc0 := hcf cfgId sc0 hg
      by_cases hemp : (sc0.listeners.erase l).isEmpty <;>
        by_cases hp : (cfgs cfgId).persistState = some false <;>
          simp [hemp, hp, hc0] at he
  | hydrate =>
    simp only [step, List.mem_filterMap] at he
    obtain ⟨kv, _, hkv⟩ := he
    simp at hkv

/-- C4: during server rendering (no `window` object) no `onSubscribe`
callback is ever invoked, whatever operations the components perform:
every event of a server trace is an `initialState` computation or a plain
listener notification, and in particular no `onSubscribeCalled` event
occurs. -/
theorem server_rendering_never_invokes_onSubscribe {IV V : Type}
    (cfgs : Nat → Config IV V) (iv : IV) (ops : List (Op V)) :
    (∀ e ∈ (runTrace false cfgs (initialCtx iv) ops).2,
      (∃ k ivx hx r, e = Event.initialStateCalled k ivx hx r) ∨
        ∃ k l v, e = Event.listenerNotified k l v) ∧
    ∀ k v, Event.onSubscribeCalled k v ∉
      (runTrace false cfgs (initialCtx iv) ops).2 := by
  have main : ∀ (ops : List (Op V)) (ctx : ContextData IV V), cleanupFree ctx →
      ∀ e ∈ (runTrace false cfgs ctx ops).2,
      (∃ k ivx hx r, e = Event.initialStateCalled k ivx hx r) ∨
        ∃ k l v, e = Event.listenerNotified k l v := by
    intro ops
    induction ops with
    | nil =>
      intro ctx _ e he
      simp [runTrace] at he
    | cons op rest ih =>
      intro ctx hcf e he
      simp only [runTrace, List.mem_append] at he
      rcases he with he | he
      · exact step_server_events cfgs ctx op hcf e he
      · exact ih _ (cleanupFree_step_server cfgs ctx op hcf) e he
  refine ⟨main ops (initialCtx iv) (cleanupFree_initial iv), ?_⟩
  intro k v hmem
  rcases main ops (initialCtx iv) (cleanupFree_initial iv) _ hmem with
    ⟨_, _, _, _, h⟩ | ⟨_, _, _, h⟩ <;> simp at h

theorem server_rendering_never_invokes_onSubscribe_witness :
    ((∃ k ivx hx r,
        (Event.initialStateCalled 0 5 false 7 : Event Nat Nat) =
          Event.initialStateCalled k ivx hx r) ∨
      ∃ k l v,
        (Event.initialStateCalled 0 5 false 7 : Event Nat Nat) =
          Event.listenerNotified k l v) ∧
    Event.onSubscribeCalled 0 7 ∉
      (runTrace false (fun _ => sampleCfg) (initialCtx 5)
        [Op.read 0, Op.subscribe 0 1, Op.setState 0 (Upd.const 9)]).2 :=
  ⟨(server_rendering_never_invokes_onSubscribe (fun _ => sampleCfg) 5
      [Op.read 0, Op.subscribe 0 1, Op.setState 0 (Upd.const 9)]).1
      (Event.initialStateCalled 0 5 false 7) (by decide),
    (server_rendering_never_invokes_onSubscribe (fun _ => sampleCfg) 5
      [Op.read 0, Op.subscribe 0 1, Op.setState 0 (Upd.const 9)]).2 0 7⟩

/-- A step addressed to a different slice (or the provider's hydration
effect) leaves this slice's registry entry untouched. -/
theorem step_frame_other {IV V : Type} (client : Bool)
    (cfgs : Nat → Config IV V) (ctx : ContextData IV V) (op : Op V)
    (cfgId : Nat) (hk : Op.targets op ≠ some cfgId) :
    mapGet (step client cfgs ctx op).1.subContexts cfgId =
      mapGet ctx.subContexts cfgId := by
  cases op with
  | read cfgId' =>
    have hne : cfgId ≠ cfgId' := fun h => hk (by simp [Op.targets, h])
    exact initializeSubContext_frame client (cfgs cfgId') cfgId' ctx cfgId hne
  | subscribe cfgId' l =>
    have hne : cfgId ≠ cfgId' := fun h => hk (by simp [Op.targets, h])
    simp only [step]
    rw [mapGet_mapSet_ne _ _ _ _ hne]
    exact initializeSubContext_frame client (cfgs cfgId') cfgId' ctx cfgId hne
  | setState cfgId' u =>
    have hne : cfgId ≠ cfgId' := fun h => hk (by simp [Op.targets, h])
    simp only [step]
    rw [mapGet_mapSet_ne _ _ _ _ hne]
    exact initializeSubContext_frame client (cfgs cfgId') cfgId' ctx cfgId hne
  | unsubscribe cfgId' l =>
    have hne : cfgId ≠ cfgId' := fun h => hk (by simp [Op.targets, h])
    simp only [step, unsubscribeOp]
    cases hg : mapGet ctx.subContexts cfgId' with
    | none => rfl
    | some sc0 =>
      simp only []
      by_cases hemp : (sc0.listeners.erase l).isEmpty
      · rw [if_pos hemp]
        by_cases hp : (cfgs cfgId').persistState = some false
        · rw [if_pos hp]
          exact mapGet_mapDel_ne _ _ _ hne
        · rw [if_neg hp]
          exact mapGet_mapSet_ne _ _ _ _ hne
      · rw [if_neg hemp]
        exact mapGet_mapSet_ne _ _ _ _ hne
  | hydrate => rfl

/-- An `initialState` computation for a slice only happens in a step
addressed to that slice. -/
theorem step_initialState_targets {IV V : Type} (client : Bool)
    (cfgs : Nat → Config IV V) (ctx : ContextData IV V) (op : Op V)
    (cfgId : Nat) (ivx : IV) (hx : Bool) (r : V)
    (he : Event.initialStateCalled cfgId ivx hx r ∈ (step client cfgs ctx op).2) :
    Op.targets op = some cfgId := by
  cases op with
  | read cfgId' =>
    obtain ⟨h1, -⟩ :=
      initializeSubContext_initialState_events client (cfgs cfgId') cfgId' ctx
        _ _ _ _ he
    simp [Op.targets, h1]
  | subscribe cfgId' l =>
    obtain ⟨h1, -⟩ :=
      initializeSubContext_initialState_events client (cfgs cfgId') cfgId' ctx
        _ _ _ _ he
    simp [Op.targets, h1]
  | setState cfgId' u =>
    simp only [step, List.mem_append] at he
    rcases he with he | he
    · obtain ⟨h1, -⟩ :=
        initializeSubContext_initialState_events client (cfgs cfgId') cfgId' ctx
          _ _ _ _ he
      simp [Op.targets, h1]
    · simp only [updateStateCore, List.mem_map] at he
      obtain ⟨l, -, hlv⟩ := he
      simp at hlv
  | unsubscribe cfgId' l =>
    simp only [step, unsubscribeOp] at he
    cases hg : mapGet ctx.subContexts cfgId' with
    | none =>
      rw [hg] at he
      simp at he
    | some sc0 =>
      rw [hg] at he
      by_cases hemp : (sc0.listeners.erase l).isEmpty <;>
        by_cases hp : (cfgs cfgId').persistState = some false <;>
          by_cases hc : sc0.cleanup <;>
            simp [hemp, hp, hc] at he
  | hydrate =>
    simp only [step, List.mem_filterMap] at he
    obtain ⟨kv, -, hkv⟩ := he
    by_cases hb : client && (cfgs kv.1).onHydrate <;> simp [hb] at hkv

/-- A trace that never addresses a slice neither creates its entry nor
runs its `initialState`. -/
theorem runTrace_untouched {IV V : Type} (client : Bool)
    (cfgs : Nat → Config IV V) (ctx : ContextData IV V) (ops : List (Op V))
    (cfgId : Nat) (hops : ∀ op ∈ ops, Op.targets op ≠ some cfgId) :
    mapGet (runTrace client cfgs ctx ops).1.subContexts cfgId =
      mapGet ctx.subContexts cfgId ∧
    ∀ ivx hx r, Event.initialStateCalled cfgId ivx hx r ∉
      (runTrace client cfgs ctx ops).2 := by
  induction ops generalizing ctx with
  | nil => exact ⟨rfl, fun ivx hx r h => by simp [runTrace] at h⟩
  | cons op rest ih =>
    have hop := hops op (List.mem_cons_self op rest)
    have hrest := ih ((step client cfgs ctx op).1)
      (fun o ho => hops o (List.mem_cons_of_mem op ho))
    refine ⟨?_, ?_⟩
    · rw [show (runTrace client cfgs ctx (op :: rest)).1 =
        (runTrace client cfgs (step client cfgs ctx op).1 rest).1 from rfl,
        hrest.1]
      exact step_frame_other client cfgs ctx op cfgId hop
    · intro ivx hx r h
      rw [show (runTrace client cfgs ctx (op :: rest)).2 =
        (step client cfgs ctx op).2 ++
          (runTrace client cfgs (step client cfgs ctx op).1 rest).2 from rfl,
        List.mem_append] at h
      rcases h with h | h
      · exact hop (step_initialState_targets client cfgs ctx op cfgId ivx hx r h)
      · exact hrest.2 ivx hx r h

/-- If `onSubscribe` performs no synchronous update, running it leaves the
entry's value unchanged. -/
theorem runOnSubscribe_value_syncFree {IV V : Type} (client : Bool)
    (cfg : Config IV V) (cfgId : Nat) (sc : SubContext V)
    (hfree : syncCallFree cfg) :
    (runOnSubscribe client cfg cfgId sc).1.value = sc.value := by
  unfold runOnSubscribe
  cases hcl : client with
  | false => simp
  | true =>
    cases hos : cfg.onSubscribe with
    | none => simp
    | some os => simp [hfree os hos, applyCalls]

/-- C5: slice entries are created lazily and recomputed after eviction.
(1) A trace whose operations never address a slice leaves the registry
without an entry for it and never runs its `initialState`.
(2) With `persistState: false`, the unsubscribe of the last listener
evicts the entry from the registry.
(3) A subsequent access of an absent entry creates a fresh one, calling
`initialState` again on the registry's initial values and current
hydration flag; if `onSubscribe` performs no synchronous update, the fresh
entry's value is that recomputed result. -/
theorem lazy_creation_and_eviction_recompute {IV V : Type} (client : Bool)
    (cfgs : Nat → Config IV V) (iv : IV) (cfgId : Nat) (ops : List (Op V))
    (ctx1 ctx2 : ContextData IV V) (sc : SubContext V) (l : Nat) :
    ((∀ op ∈ ops, Op.targets op ≠ some cfgId) →
      mapGet (runTrace client cfgs (initialCtx iv) ops).1.subContexts cfgId =
        none ∧
      ∀ ivx hx r, Event.initialStateCalled cfgId ivx hx r ∉
        (runTrace client cfgs (initialCtx iv) ops).2) ∧
    ((cfgs cfgId).persistState = some false →
      mapGet ctx1.subContexts cfgId = some sc →
      (sc.listeners.erase l).isEmpty = true →
      mapGet (step client cfgs ctx1
        (Op.unsubscribe cfgId l)).1.subContexts cfgId = none) ∧
    (mapGet ctx2.subContexts cfgId = none →
      (step client cfgs ctx2 (Op.read cfgId)).2.head? =
        some (Event.initialStateCalled cfgId ctx2.initialValues
          ctx2.isHydrated
          ((cfgs cfgId).initialState ctx2.initialValues ctx2.isHydrated)) ∧
      ∃ sc', mapGet (step client cfgs ctx2
        (Op.read cfgId)).1.subContexts cfgId = some sc') ∧
    (mapGet ctx2.subContexts cfgId = none → syncCallFree (cfgs cfgId) →
      ∃ sc', mapGet (step client cfgs ctx2
          (Op.read cfgId)).1.subContexts cfgId = some sc' ∧
        sc'.value =
          (cfgs cfgId).initialState ctx2.initialValues ctx2.isHydrated) := by
  refine ⟨?_, ?_, ?_, ?_⟩
  · intro hops
    have h := runTrace_untouched client cfgs (initialCtx iv) ops cfgId hops
    exact ⟨by rw [h.1]; rfl, h.2⟩
  · intro hp hsc hemp
    simp only [step, unsubscribeOp, hsc]
    rw [if_pos hemp, if_pos hp]
    exact mapGet_mapDel_self _ _
  · intro habs
    constructor
    · show (initializeSubContext client (cfgs cfgId) cfgId ctx2).2.2.head? = _
      unfold initializeSubContext
      rw [habs]
      rfl
    · exact ⟨_, initializeSubContext_mapGet client (cfgs cfgId) cfgId ctx2⟩
  · intro habs hfree
    refine ⟨(initializeSubContext client (cfgs cfgId) cfgId ctx2).2.1,
      initializeSubContext_mapGet client (cfgs cfgId) cfgId ctx2, ?_⟩
    show (initializeSubContext client (cfgs cfgId) cfgId ctx2).2.1.value = _
    unfold initializeSubContext
    rw [habs]
    exact runOnSubscribe_value_syncFree client (cfgs cfgId) cfgId _ hfree

/-- A slice configuration with `persistState: false`. -/
def sampleCfgNoPersist : Config Nat Nat :=
  { initialState := fun iv _ => iv + 2
    onHydrate := false
    onSubscribe := some { calls := fun _ => [], hasCleanup := false }
    persistState := some false }

theorem lazy_creation_and_eviction_recompute_witness :
    (mapGet (runTrace true (fun _ => sampleCfgNoPersist) (initialCtx 5)
        [Op.read 1, Op.hydrate]).1.subContexts 0 = none ∧
      ∀ ivx hx r, Event.initialStateCalled 0 ivx hx r ∉
        (runTrace true (fun _ => sampleCfgNoPersist) (initialCtx 5)
          [Op.read 1, Op.hydrate]).2) ∧
    mapGet (step true (fun _ => sampleCfgNoPersist)
      ⟨5, [(0, ⟨7, true, [2], false⟩)], true⟩
      (Op.unsubscribe 0 2)).1.subContexts 0 = none ∧
    ((step true (fun _ => sampleCfgNoPersist) (initialCtx 5)
        (Op.read 0)).2.head? =
      some (Event.initialStateCalled 0 5 false
        (sampleCfgNoPersist.initialState 5 false)) ∧
      ∃ sc', mapGet (step true (fun _ => sampleCfgNoPersist) (initialCtx 5)
        (Op.read 0)).1.subContexts 0 = some sc') ∧
    ∃ sc', mapGet (step true (fun _ => sampleCfgNoPersist) (initialCtx 5)
        (Op.read 0)).1.subContexts 0 = some sc' ∧
      sc'.value = sampleCfgNoPersist.initialState 5 false :=
  ⟨(lazy_creation_and_eviction_recompute true (fun _ => sampleCfgNoPersist) 5 0
      [Op.read 1, Op.hydrate] ⟨5, [(0, ⟨7, true, [2], false⟩)], true⟩
      (initialCtx 5) ⟨7, true, [2], false⟩ 2).1 (by decide),
    (lazy_creation_and_eviction_recompute true (fun _ => sampleCfgNoPersist) 5 0
      [Op.read 1, Op.hydrate] ⟨5, [(0, ⟨7, true, [2], false⟩)], true⟩
      (initialCtx 5) ⟨7, true, [2], false⟩ 2).2.1 rfl rfl (by decide),
    (lazy_creation_and_eviction_recompute true (fun _ => sampleCfgNoPersist) 5 0
      [Op.read 1, Op.hydrate] ⟨5, [(0, ⟨7, true, [2], false⟩)], true⟩
      (initialCtx 5) ⟨7, true, [2], false⟩ 2).2.2.1 rfl,
    (lazy_creation_and_eviction_recompute true (fun _ => sampleCfgNoPersist) 5 0
      [Op.read 1, Op.hydrate] ⟨5, [(0, ⟨7, true, [2], false⟩)], true⟩
      (initialCtx 5) ⟨7, true, [2], false⟩ 2).2.2.2 rfl
      (fun os hos _ => by cases hos; rfl)⟩

/-- The module-level `globalStateMemoCache`:
`WeakMap<Function, WeakMap<GlobalStateInitialValues, unknown>>`, with both
key kinds as identities. -/
structure MemoCache (V : Type) where
  cache : List (Nat × List (Nat × V))
  deriving DecidableEq

/-- Mirrors `new WeakMap()`. -/
def MemoCache.empty {V : Type} : MemoCache V := ⟨[]⟩

/-- One call of the function returned by `globalStateMemo(factory)`
(`index.tsx` lines 303‑317) on the initial-values object `ivId`:
look up the factory's per-context cache (`globalStateMemo` created it if it
was missing); on a miss compute `factory(initialValues)` and store it;
return the cached value.  `F factoryId ivId` is the value the factory
computes for that initial-values object; the returned flag records whether
the factory was invoked by this call. -/
def memoApply {V : Type} (F : Nat → Nat → V) (factoryId : Nat)
    (st : MemoCache V) (ivId : Nat) : MemoCache V × V × Bool :=
  let inner := (mapGet st.cache factoryId).getD []
  match mapGet inner ivId with
  | some v => (st, v, false)
  | none =>
    let v := F factoryId ivId
    (⟨mapSet st.cache factoryId (mapSet inner ivId v)⟩, v, true)

/-- Cache hit: the cached value is returned, the factory is not invoked,
the cache is unchanged. -/
theorem memoApply_hit {V : Type} (F : Nat → Nat → V) (factoryId : Nat)
    (st : MemoCache V) (ivId : Nat) (v : V)
    (h : mapGet ((mapGet st.cache factoryId).getD []) ivId = some v) :
    memoApply F factoryId st ivId = (st, v, false) := by
  simp only [memoApply]
  rw [h]

/-- Cache miss: the factory is invoked and its result stored. -/
theorem memoApply_miss {V : Type} (F : Nat → Nat → V) (factoryId : Nat)
    (st : MemoCache V) (ivId : Nat)
    (h : mapGet ((mapGet st.cache factoryId).getD []) ivId = none) :
    memoApply F factoryId st ivId =
      (⟨mapSet st.cache factoryId
          (mapSet ((mapGet st.cache factoryId).getD []) ivId
            (F factoryId ivId))⟩,
        F factoryId ivId, true) := by
  simp only [memoApply]
  rw [h]

/-- After any `memoApply` call the result for that initial-values object is
cached. -/
theorem memoApply_caches {V : Type} (F : Nat → Nat → V) (factoryId : Nat)
    (st : MemoCache V) (ivId : Nat) :
    mapGet ((mapGet (memoApply F factoryId st ivId).1.cache factoryId).getD [])
      ivId = some (memoApply F factoryId st ivId).2.1 := by
  cases h : mapGet ((mapGet st.cache factoryId).getD []) ivId with
  | some v =>
    rw [memoApply_hit F factoryId st ivId v h]
    exact h
  | none =>
    rw [memoApply_miss F factoryId st ivId h]
    show mapGet ((mapGet (mapSet st.cache factoryId
      (mapSet ((mapGet st.cache factoryId).getD []) ivId
        (F factoryId ivId))) factoryId).getD []) ivId = _
    rw [mapGet_mapSet_self, Option.getD_some, mapGet_mapSet_self]

/-- C6: `globalStateMemo` memoizes by object identity.  Calling the
memoized function twice with the same initial-values object invokes the
factory at most once (never on the second call) and returns the identical
cached result both times; starting from an empty cache the first call does
invoke the factory and returns its result, and a call with a different
object identity — regardless of its contents — invokes the factory again
and returns an independently computed result. -/
theorem globalStateMemo_memoizes_by_identity {V : Type} (F : Nat → Nat → V)
    (factoryId : Nat) (st : MemoCache V) (iv1 iv2 : Nat) :
    (memoApply F factoryId (memoApply F factoryId st iv1).1 iv1).2.2 =
      false ∧
    (memoApply F factoryId (memoApply F factoryId st iv1).1 iv1).2.1 =
      (memoApply F factoryId st iv1).2.1 ∧
    ((memoApply F factoryId MemoCache.empty iv1).2.2 = true ∧
      (memoApply F factoryId MemoCache.empty iv1).2.1 = F factoryId iv1) ∧
    (iv2 ≠ iv1 →
      (memoApply F factoryId
        (memoApply F factoryId MemoCache.empty iv1).1 iv2).2.2 = true ∧
      (memoApply F factoryId
        (memoApply F factoryId MemoCache.empty iv1).1 iv2).2.1 =
        F factoryId iv2) := by
  have hsecond := memoApply_hit F factoryId (memoApply F factoryId st iv1).1
    iv1 (memoApply F factoryId st iv1).2.1 (memoApply_caches F factoryId st iv1)
  have hempty : memoApply F factoryId MemoCache.empty iv1 =
      (⟨[(factoryId, [(iv1, F factoryId iv1)])]⟩, F factoryId iv1, true) := rfl
  refine ⟨?_, ?_, ⟨?_, ?_⟩, ?_⟩
  · rw [hsecond]
  · rw [hsecond]
  · rw [hempty]
  · rw [hempty]
  · intro hne
    have hmiss : mapGet ((mapGet (memoApply F factoryId MemoCache.empty
        iv1).1.cache factoryId).getD []) iv2 = none := by
      rw [hempty]
      show mapGet ((mapGet [(factoryId, [(iv1, F factoryId iv1)])]
        factoryId).getD []) iv2 = none
      simp [mapGet, Ne.symm hne]
    rw [memoApply_miss F factoryId (memoApply F factoryId MemoCache.empty
      iv1).1 iv2 hmiss]
    exact ⟨rfl, rfl⟩



theorem globalStateMemo_memoizes_by_identity_witness :
    (memoApply (fun _ iv => iv * 3) 0
      (memoApply (fun _ iv => iv * 3) 0 MemoCache.empty 1).1 1).2.2 = false ∧
    (memoApply (fun _ iv => iv * 3) 0
      (memoApply (fun _ iv => iv * 3) 0 MemoCache.empty 1).1 1).2.1 =
      (memoApply (fun _ iv => iv * 3) 0 MemoCache.empty 1).2.1 ∧
    ((memoApply (fun _ iv => iv * 3) 0 MemoCache.empty 1).2.2 = true ∧
      (memoApply (fun _ iv => iv * 3) 0 MemoCache.empty 1).2.1 = 3) ∧
    ((memoApply (fun _ iv => iv * 3) 0
        (memoApply (fun _ iv => iv * 3) 0 MemoCache.empty 1).1 2).2.2 =
        true ∧
      (memoApply (fun _ iv => iv * 3) 0
        (memoApply (fun _ iv => iv * 3) 0 MemoCache.empty 1).1 2).2.1 = 6) :=
  have h := globalStateMemo_memoizes_by_identity (fun _ iv => iv * 3) 0
    MemoCache.empty 1 2
  ⟨h.1, h.2.1, h.2.2.1, h.2.2.2 (by decide)⟩

/-- Several mounted `GlobalStateProvider`s in one process: each provider
instance (identified by a `Nat`) owns its own `GlobalStateContextData`,
created by its own `useRef`. -/
def WorldT (IV V : Type) := List (Nat × ContextData IV V)

/-- A component below provider `p` performs one operation: it reads the
framework context of `p` (`use(GlobalStateContext)`) and steps only that
provider's registry. -/
def worldStep {IV V : Type} (client : Bool) (cfgs : Nat → Config IV V)
    (w : WorldT IV V) (p : Nat) (op : Op V) : WorldT IV V :=
  match mapGet w p with
  | none => w
  | some ctx => mapSet w p (step client cfgs ctx op).1

/-- Run a list of (provider, operation) pairs. -/
def worldRun {IV V : Type} (client : Bool) (cfgs : Nat → Config IV V)
    (w : WorldT IV V) : List (Nat × Op V) → WorldT IV V
  | [] => w
  | a :: rest => worldRun client cfgs (worldStep client cfgs w a.1 a.2) rest

/-- The value provider `q`'s registry currently stores for slice `cfgId`. -/
def worldSliceValue {IV V : Type} (w : WorldT IV V) (q cfgId : Nat) :
    Option V :=
  (mapGet w q).bind fun ctx => (mapGet ctx.subContexts cfgId).map SubContext.value

/-- C7: each mounted root provider owns one isolated registry.  Operations
performed under provider `p` leave every other provider's registry — and
in particular the value it stores for any slice configuration, including
one whose configuration identity is also used under `p` — exactly
unchanged. -/
theorem providers_have_isolated_registries {IV V : Type} (client : Bool)
    (cfgs : Nat → Config IV V) (w : WorldT IV V) (p q : Nat)
    (acts : List (Nat × Op V)) (hacts : ∀ a ∈ acts, a.1 = p) (hq : q ≠ p) :
    mapGet (worldRun client cfgs w acts) q = mapGet w q ∧
    ∀ cfgId, worldSliceValue (worldRun client cfgs w acts) q cfgId =
      worldSliceValue w q cfgId := by
  have hmain : mapGet (worldRun client cfgs w acts) q = mapGet w q := by
    induction acts generalizing w with
    | nil => rfl
    | cons a rest ih =>
      rw [show worldRun client cfgs w (a :: rest) =
        worldRun client cfgs (worldStep client cfgs w a.1 a.2) rest from rfl,
        ih _ (fun b hb => hacts b (List.mem_cons_of_mem a hb))]
      have hp := hacts a (List.mem_cons_self a rest)
      unfold worldStep
      cases hg : mapGet w a.1 with
      | none => rfl
      | some ctx =>
        rw [hp]
        exact mapGet_mapSet_ne _ _ _ _ hq
  exact ⟨hmain, fun cfgId => by unfold worldSliceValue; rw [hmain]⟩

theorem providers_have_isolated_registries_witness :
    mapGet (worldRun true (fun _ => sampleCfg)
      [(0, initialCtx 3), (1, initialCtx 4)]
      [(0, Op.read 0), (0, Op.subscribe 0 7), (0, Op.setState 0 (Upd.const 9))])
      1 = mapGet [(0, initialCtx 3), (1, (initialCtx 4 : ContextData Nat Nat))] 1 ∧
    ∀ cfgId, worldSliceValue (worldRun true (fun _ => sampleCfg)
      [(0, initialCtx 3), (1, initialCtx 4)]
      [(0, Op.read 0), (0, Op.subscribe 0 7), (0, Op.setState 0 (Upd.const 9))])
      1 cfgId =
      worldSliceValue [(0, initialCtx 3), (1, (initialCtx 4 : ContextData Nat Nat))] 1 cfgId :=
  providers_have_isolated_registries true (fun _ => sampleCfg)
    [(0, initialCtx 3), (1, initialCtx 4)] 0 1
    [(0, Op.read 0), (0, Op.subscribe 0 7), (0, Op.setState 0 (Upd.const 9))]
    (by decide) (by decide)

/-- A slice configuration whose `initialState` can throw, mirrored with
`Except`: `initialState` either returns a value or raises an exception of
type `E`. -/
structure ConfigE (IV V E : Type) where
  initialState : IV → Bool → Except E V
  onSubscribe : Option (OnSub V)
  persistState : Option Bool

/-- The `initializeSubContext` path for a throwing `initialState`.  In the source
the `initialState` call happens while the new subcontext object literal is
being evaluated, before `subContexts.set` runs, so when it throws the
exception propagates to the caller and nothing has been added to the
registry. -/
def initializeSubContextE {IV V E : Type} (client : Bool)
    (cfg : ConfigE IV V E) (cfgId : Nat) (ctx : ContextData IV V) :
    ContextData IV V × Except E (SubContext V) × List (Event IV V) :=
  match mapGet ctx.subContexts cfgId with
  | none =>
    match cfg.initialState ctx.initialValues ctx.isHydrated with
    | .error e => (ctx, .error e, [])
    | .ok v0 =>
      let sc0 : SubContext V :=
        { value := v0, initialized := true, listeners := [], cleanup := false }
      let r := runOnSubscribe client
        ⟨fun _ _ => v0, false, cfg.onSubscribe, cfg.persistState⟩ cfgId sc0
      ({ ctx with subContexts := mapSet ctx.subContexts cfgId r.1 }, .ok r.1,
        Event.initialStateCalled cfgId ctx.initialValues ctx.isHydrated v0
          :: r.2)
  | some sc =>
    if sc.initialized then (ctx, .ok sc, [])
    else
      let r := runOnSubscribe client
        ⟨fun _ _ => sc.value, false, cfg.onSubscribe, cfg.persistState⟩ cfgId sc
      let sc2 := { r.1 with initialized := true }
      ({ ctx with subContexts := mapSet ctx.subContexts cfgId sc2 }, .ok sc2,
        r.2)

/-- C10: slice creation is atomic on error.  If `initialState` throws on
first access, the exception propagates, the registry is left exactly
unchanged — no partially constructed entry exists for the slice — and a
later access enters the creation path again (re-calling `initialState`,
which then determines the outcome afresh). -/
theorem initialState_throw_leaves_registry_unchanged {IV V E : Type}
    (client : Bool) (cfg : ConfigE IV V E) (cfgId : Nat)
    (ctx : ContextData IV V) (e : E)
    (habs : mapGet ctx.subContexts cfgId = none)
    (herr : cfg.initialState ctx.initialValues ctx.isHydrated = .error e) :
    (initializeSubContextE client cfg cfgId ctx).1 = ctx ∧
    (initializeSubContextE client cfg cfgId ctx).2.1 = .error e ∧
    (initializeSubContextE client cfg cfgId ctx).2.2 = [] ∧
    mapGet (initializeSubContextE client cfg cfgId ctx).1.subContexts cfgId =
      none ∧
    (initializeSubContextE client cfg cfgId
      (initializeSubContextE client cfg cfgId ctx).1).2.1 = .error e := by
  have hred : initializeSubContextE client cfg cfgId ctx = (ctx, .error e, []) := by
    unfold initializeSubContextE
    rw [habs, herr]
  refine ⟨?_, ?_, ?_, ?_, ?_⟩
  · rw [hred]
  · rw [hred]
  · rw [hred]
  · rw [hred]
    exact habs
  · rw [hred]
    show (initializeSubContextE client cfg cfgId ctx).2.1 = .error e
    rw [hred]

/-- A throwing configuration used by the witness: `initialState` always
raises exception `37`. -/
def sampleCfgThrow : ConfigE Nat Nat Nat :=
  { initialState := fun _ _ => Except.error 37
    onSubscribe := none
    persistState := none }

theorem initialState_throw_leaves_registry_unchanged_witness :
    (initializeSubContextE true sampleCfgThrow 0 (initialCtx 5)).1 =
      initialCtx 5 ∧
    (initializeSubContextE true sampleCfgThrow 0 (initialCtx 5)).2.1 =
      Except.error 37 ∧
    (initializeSubContextE true sampleCfgThrow 0 (initialCtx 5)).2.2 = [] ∧
    mapGet (initializeSubContextE true sampleCfgThrow 0
      (initialCtx 5)).1.subContexts 0 = none ∧
    (initializeSubContextE true sampleCfgThrow 0
      (initializeSubContextE true sampleCfgThrow 0 (initialCtx 5)).1).2.1 =
      Except.error 37 :=
  initialState_throw_leaves_registry_unchanged true sampleCfgThrow 0
    (initialCtx 5) 37 rfl rfl

end Orbo
